import Mathlib

/-!
Shallow embedding of `model/bot.go` from the mattermost-server repository.

Conventions of the embedding:
* Go strings are Lean `String`s; Go `len(s)` (a byte count) is `String.utf8ByteSize`,
  and `utf8.RuneCountInString` (a count of Unicode scalar values) is `String.length`.
* Go `int64` timestamps are `Int` (no arithmetic overflows in this file).
* Go pointers that may be nil (`*Bot`, `*string` patch fields) are `Option`s.
* Fallible JSON decoding is modelled over parsed JSON values: the reader handed to a
  `FromJson` function is `Option JVal`, where `none` stands for malformed input on
  which `encoding/json` produces no value (a syntax error before any value is
  decoded, leaving the decode target untouched).
* External collaborators that live elsewhere in the repository
  (`IsValidUsername`, `USER_FIRST_NAME_MAX_RUNES`, the `Etag` helper) are taken
  as parameters, so every theorem below holds for any choice of them.
-/

namespace Model

/-- The bot entity of `model/bot.go`: field for field the Go struct `Bot`. -/
structure Bot where
  UserId      : String
  Username    : String
  DisplayName : String
  Description : String
  CreatorId   : String
  CreateAt    : Int
  UpdateAt    : Int
  DeleteAt    : Int
deriving Repr, DecidableEq

/-- The Go struct `BotPatch`: three optional overrides (`*string` fields). -/
structure BotPatch where
  Username    : Option String
  DisplayName : Option String
  Description : Option String
deriving Repr, DecidableEq

/-- `BotList` is `[]*Bot` in Go; for the operations below the entries are the
pointed-to bots (dereferencing a nil entry would panic in the source). -/
abbrev BotList := List Bot

/-- The application error produced by `NewAppError(where, id, params, details, status)`.
The trace context map is modelled as an association list of string pairs, which is
what `Bot.Trace` actually puts in it. -/
structure AppError where
  whereLoc   : String
  id         : String
  params     : List (String × String)
  details    : String
  statusCode : Nat
deriving Repr, DecidableEq

/-- `NewAppError` from the repository's error contract: operation name, message key,
trace context, debug detail, HTTP status code. -/
def NewAppError (whereLoc id : String) (params : List (String × String))
    (details : String) (statusCode : Nat) : AppError :=
  ⟨whereLoc, id, params, details, statusCode⟩

/-- `Bot.Trace`: the map `{"user_id": b.UserId}`. -/
def Bot.Trace (b : Bot) : List (String × String) :=
  [("user_id", b.UserId)]

/-- `Bot.Clone`: a shallow copy of the bot value. -/
def Bot.Clone (b : Bot) : Bot := b

/-- `Bot.IsValid`, parameterized by the shared username-format check
`IsValidUsername` and the shared constant `USER_FIRST_NAME_MAX_RUNES`
(= `BOT_DISPLAY_NAME_MAX_RUNES`), both defined outside `model/bot.go`.
A `some` result is the returned `*AppError`; `none` is the nil return.
The duplicated message key on the display-name check reproduces the source. -/
def Bot.IsValid (isValidUsername : String → Bool) (maxDisplayRunes : Nat)
    (b : Bot) : Option AppError :=
  if b.UserId.utf8ByteSize ≠ 26 then
    some (NewAppError "Bot.IsValid" "model.bot.is_valid.user_id.app_error" b.Trace "" 400)
  else if ¬ isValidUsername b.Username then
    some (NewAppError "Bot.IsValid" "model.bot.is_valid.username.app_error" b.Trace "" 400)
  else if b.DisplayName.length > maxDisplayRunes then
    some (NewAppError "Bot.IsValid" "model.bot.is_valid.user_id.app_error" b.Trace "" 400)
  else if b.Description.length > 1024 then
    some (NewAppError "Bot.IsValid" "model.bot.is_valid.description.app_error" b.Trace "" 400)
  else if b.CreatorId.utf8ByteSize ≠ 26 then
    some (NewAppError "Bot.IsValid" "model.bot.is_valid.creator_id.app_error" b.Trace "" 400)
  else if b.CreateAt = 0 then
    some (NewAppError "Bot.IsValid" "model.bot.is_valid.create_at.app_error" b.Trace "" 400)
  else if b.UpdateAt = 0 then
    some (NewAppError "Bot.IsValid" "model.bot.is_valid.update_at.app_error" b.Trace "" 400)
  else
    none

/-- `Bot.Patch`: sequentially overwrite each of the three overridable fields
when the corresponding patch pointer is non-nil. -/
def Bot.Patch (b : Bot) (patch : BotPatch) : Bot :=
  let b₁ := match patch.Username with
    | some v => { b with Username := v }
    | none => b
  let b₂ := match patch.DisplayName with
    | some v => { b₁ with DisplayName := v }
    | none => b₁
  match patch.Description with
    | some v => { b₂ with Description := v }
    | none => b₂

/-- A parsed JSON value, the granularity at which `encoding/json` decoding is
modelled. -/
inductive JVal where
  | jnull
  | jbool (b : Bool)
  | jstr (s : String)
  | jnum (n : Int)
  | jarr (els : List JVal)
  | jobj (fields : List (String × JVal))

/-- First value bound to key `k` in a JSON object, as `encoding/json` reads a
field of a decoded struct. -/
def lookupField (fields : List (String × JVal)) (k : String) : Option JVal :=
  (fields.find? (fun p => p.1 == k)).map (fun p => p.2)

/-- A string field of a decoded struct: a missing key leaves the Go zero value
`""` in place. (Inputs binding the key to a non-string value make `Decode`
error out in Go; no operation modelled here is applied to such inputs.) -/
def getStr (fields : List (String × JVal)) (k : String) : String :=
  match lookupField fields k with
  | some (JVal.jstr s) => s
  | _ => ""

/-- An `int64` field of a decoded struct: a missing key leaves the zero value. -/
def getInt (fields : List (String × JVal)) (k : String) : Int :=
  match lookupField fields k with
  | some (JVal.jnum n) => n
  | _ => 0

/-- A `*string` field of a decoded struct: JSON `null` and a missing key both
leave the pointer nil. -/
def getStrOpt (fields : List (String × JVal)) (k : String) : Option String :=
  match lookupField fields k with
  | some (JVal.jstr s) => some s
  | _ => none

/-- `Bot.ToJson`: `json.Marshal` of the struct, every tagged field emitted. -/
def Bot.ToJson (b : Bot) : JVal :=
  JVal.jobj
    [("user_id", JVal.jstr b.UserId),
     ("username", JVal.jstr b.Username),
     ("display_name", JVal.jstr b.DisplayName),
     ("description", JVal.jstr b.Description),
     ("creator_id", JVal.jstr b.CreatorId),
     ("create_at", JVal.jnum b.CreateAt),
     ("update_at", JVal.jnum b.UpdateAt),
     ("delete_at", JVal.jnum b.DeleteAt)]

/-- `BotFromJson`: decodes into `var bot *Bot` and returns `bot`, ignoring the
decode error. The result is the nil pointer (`none`) when the input is
malformed (no JSON value: the target is never touched), is JSON `null`
(decoded into `*Bot` as nil), or is a value of non-object shape (`Decode`
errors out before allocating). A JSON object allocates and fills the struct. -/
def BotFromJson : Option JVal → Option Bot
  | some (JVal.jobj fields) =>
      some
        { UserId := getStr fields "user_id"
          Username := getStr fields "username"
          DisplayName := getStr fields "display_name"
          Description := getStr fields "description"
          CreatorId := getStr fields "creator_id"
          CreateAt := getInt fields "create_at"
          UpdateAt := getInt fields "update_at"
          DeleteAt := getInt fields "delete_at" }
  | _ => none

/-- `BotPatchFromJson`: decodes into `var botPatch BotPatch` and returns nil
exactly when `Decode` reports an error — on malformed input and on a value
of the wrong shape. JSON `null` decoded into a struct value is a no-op with no
error, so it yields the all-absent patch. -/
def BotPatchFromJson : Option JVal → Option BotPatch
  | none => none
  | some JVal.jnull => some ⟨none, none, none⟩
  | some (JVal.jobj fields) =>
      some
        { Username := getStrOpt fields "username"
          DisplayName := getStrOpt fields "display_name"
          Description := getStrOpt fields "description" }
  | some _ => none

/-- `BotListFromJson`: decodes into `var bots BotList` and ignores the decode
error, so malformed input, `null` and non-array values leave the nil (empty)
slice. Array entries are `*Bot` pointers and decode like `BotFromJson`. -/
def BotListFromJson : Option JVal → List (Option Bot)
  | some (JVal.jarr els) => els.map (fun j => BotFromJson (some j))
  | _ => []

/-- Modelled from the spec: the minimal human-account representation stored in
the shared account store (§4.6) — the `User` struct itself is defined outside
`model/bot.go`, so only the four fields the projection populates appear. -/
structure User where
  Id        : String
  Username  : String
  Email     : String
  FirstName : String
deriving Repr, DecidableEq

/-- `UserFromBotModel`: the projection from a bot to its user record;
the email is `fmt.Sprintf("%s@localhost", strings.ToLower(b.Username))`. -/
def UserFromBotModel (b : Bot) : User :=
  { Id := b.UserId
    Username := b.Username
    Email := b.Username.toLower ++ "@localhost"
    FirstName := b.DisplayName }

/-- The body of the loop in `BotList.Etag`: the running `(id, t)` pair is
replaced only when an entity's `UpdateAt` strictly exceeds the running `t`. -/
def etagAccStep (acc : String × Int) (v : Bot) : String × Int :=
  if v.UpdateAt > acc.2 then (v.UserId, v.UpdateAt) else acc

/-- `BotList.Etag`, parameterized by the shared four-argument `Etag` helper
defined outside `model/bot.go`. The loop starts from the sentinel `("0", 0)`
and applies `etagAccStep` to each entity in iteration order. -/
def BotList.Etag (etag : String → Int → Int → Nat → String) (l : BotList) : String :=
  let acc := l.foldl etagAccStep ("0", 0)
  etag acc.1 acc.2 0 l.length

/-- A valid sample bot used to instantiate universally quantified theorems. -/
def sampleBot : Bot :=
  { UserId := "abcdefghijklmnopqrstuvwxyz"
    Username := "botuser"
    DisplayName := "A Bot"
    Description := "a sample bot"
    CreatorId := "abcdefghijklmnopqrstuvwxyz"
    CreateAt := 1
    UpdateAt := 1
    DeleteAt := 0 }

/-- C9: the cache token of an empty collection is the shared `Etag` helper
applied to the sentinel identity "0", timestamp 0, delta 0 and length 0, for
every choice of the helper. -/
theorem botListEtag_empty (etag : String → Int → Int → Nat → String) :
    BotList.Etag etag [] = etag "0" 0 0 0 :=
  rfl

/-- C6: applying the same patch twice yields the same entity state as applying
it once. -/
theorem botPatch_idempotent (b : Bot) (p : BotPatch) :
    (b.Patch p).Patch p = b.Patch p := by
  obtain ⟨u, d, s⟩ := p
  cases u <;> cases d <;> cases s <;> rfl

/-- C7: `Bot.Patch` overwrites `Username`, `DisplayName` and `Description`
exactly when the patch provides a value, leaves an absent field unchanged,
never modifies `UserId`, `CreatorId`, `CreateAt`, `UpdateAt` or `DeleteAt`,
and the all-absent patch leaves the entity unchanged. -/
theorem botPatch_frame (b : Bot) (p : BotPatch) :
    (b.Patch p).Username = p.Username.getD b.Username ∧
    (b.Patch p).DisplayName = p.DisplayName.getD b.DisplayName ∧
    (b.Patch p).Description = p.Description.getD b.Description ∧
    (b.Patch p).UserId = b.UserId ∧
    (b.Patch p).CreatorId = b.CreatorId ∧
    (b.Patch p).CreateAt = b.CreateAt ∧
    (b.Patch p).UpdateAt = b.UpdateAt ∧
    (b.Patch p).DeleteAt = b.DeleteAt ∧
    b.Patch ⟨none, none, none⟩ = b := by
  obtain ⟨u, d, s⟩ := p
  cases u <;> cases d <;> cases s <;> simp [Bot.Patch]

/-- C8: `UserFromBotModel` is total, copies the identifier, username and
display name, synthesizes the email `<lowercased-username>@localhost`, and its
result does not depend on `Description`, `CreatorId` or the timestamps. -/
theorem userFromBotModel_spec (b : Bot) (desc creator : String) (ca ua da : Int) :
    (UserFromBotModel b).Id = b.UserId ∧
    (UserFromBotModel b).Username = b.Username ∧
    (UserFromBotModel b).Email = b.Username.toLower ++ "@localhost" ∧
    (UserFromBotModel b).FirstName = b.DisplayName ∧
    UserFromBotModel { b with
      Description := desc
      CreatorId := creator
      CreateAt := ca
      UpdateAt := ua
      DeleteAt := da } = UserFromBotModel b := by
  simp [UserFromBotModel]

/-- C5: for every valid bot, decoding the serialized form reproduces an equal
entity in every field. -/
theorem botToJson_roundtrip (isValidUsername : String → Bool)
    (maxDisplayRunes : Nat) (b : Bot)
    (hvalid : Bot.IsValid isValidUsername maxDisplayRunes b = none) :
    BotFromJson (some b.ToJson) = some b := by
  cases b
  rfl

/-- Witness for the round trip at a concrete valid bot. -/
theorem botToJson_roundtrip_witness :
    Bot.IsValid (fun _ => true) 64 sampleBot = none ∧
    BotFromJson (some sampleBot.ToJson) = some sampleBot :=
  ⟨rfl, botToJson_roundtrip (fun _ => true) 64 sampleBot rfl⟩

/-- C4: malformed input (no JSON value) makes the entity and collection
decoders return their zero values with no propagated failure, while the patch
decoder returns the nil signal, which differs from the patch decoded from an
empty object (no overrides provided). -/
theorem fromJson_malformed_behavior :
    BotFromJson none = none ∧
    BotListFromJson none = [] ∧
    BotPatchFromJson none = none ∧
    BotPatchFromJson (some (JVal.jobj [])) = some ⟨none, none, none⟩ ∧
    BotPatchFromJson none ≠ BotPatchFromJson (some (JVal.jobj [])) := by
  refine ⟨rfl, rfl, rfl, rfl, ?_⟩
  decide

/-- C10: malformed input and JSON `null` both make `BotFromJson` return the
nil pointer, which is distinguishable from every successfully decoded entity —
the same absent signal `BotPatchFromJson` returns on a decode error. -/
theorem botFromJson_absent_signal :
    BotFromJson none = none ∧
    BotFromJson (some JVal.jnull) = none ∧
    (∀ b : Bot, BotFromJson none ≠ some b ∧ BotFromJson (some JVal.jnull) ≠ some b) ∧
    BotPatchFromJson none = none := by
  refine ⟨rfl, rfl, fun b => ⟨?_, ?_⟩, rfl⟩ <;> simp [BotFromJson]

/-- C3: `IsValid` returns nil exactly when all seven invariants hold; otherwise
it returns the single failure built at the first violated rule of the fixed
order, short-circuiting the rest, and every failure carries HTTP status 400
(and the operation name). Holds for every username-format check and shared
display-name maximum. -/
theorem botIsValid_spec (vu : String → Bool) (mx : Nat) (b : Bot) :
    (Bot.IsValid vu mx b = none ↔
      (b.UserId.utf8ByteSize = 26 ∧ vu b.Username = true ∧
       b.DisplayName.length ≤ mx ∧ b.Description.length ≤ 1024 ∧
       b.CreatorId.utf8ByteSize = 26 ∧ b.CreateAt ≠ 0 ∧ b.UpdateAt ≠ 0)) ∧
    (∀ e, Bot.IsValid vu mx b = some e →
      e.whereLoc = "Bot.IsValid" ∧ e.statusCode = 400) ∧
    (b.UserId.utf8ByteSize ≠ 26 →
      Bot.IsValid vu mx b =
        some (NewAppError "Bot.IsValid" "model.bot.is_valid.user_id.app_error" b.Trace "" 400)) ∧
    (b.UserId.utf8ByteSize = 26 → vu b.Username = false →
      Bot.IsValid vu mx b =
        some (NewAppError "Bot.IsValid" "model.bot.is_valid.username.app_error" b.Trace "" 400)) ∧
    (b.UserId.utf8ByteSize = 26 → vu b.Username = true → b.DisplayName.length > mx →
      Bot.IsValid vu mx b =
        some (NewAppError "Bot.IsValid" "model.bot.is_valid.user_id.app_error" b.Trace "" 400)) ∧
    (b.UserId.utf8ByteSize = 26 → vu b.Username = true → b.DisplayName.length ≤ mx →
      b.Description.length > 1024 →
      Bot.IsValid vu mx b =
        some (NewAppError "Bot.IsValid" "model.bot.is_valid.description.app_error" b.Trace "" 400)) ∧
    (b.UserId.utf8ByteSize = 26 → vu b.Username = true → b.DisplayName.length ≤ mx →
      b.Description.length ≤ 1024 → b.CreatorId.utf8ByteSize ≠ 26 →
      Bot.IsValid vu mx b =
        some (NewAppError "Bot.IsValid" "model.bot.is_valid.creator_id.app_error" b.Trace "" 400)) ∧
    (b.UserId.utf8ByteSize = 26 → vu b.Username = true → b.DisplayName.length ≤ mx →
      b.Description.length ≤ 1024 → b.CreatorId.utf8ByteSize = 26 → b.CreateAt = 0 →
      Bot.IsValid vu mx b =
        some (NewAppError "Bot.IsValid" "model.bot.is_valid.create_at.app_error" b.Trace "" 400)) ∧
    (b.UserId.utf8ByteSize = 26 → vu b.Username = true → b.DisplayName.length ≤ mx →
      b.Description.length ≤ 1024 → b.CreatorId.utf8ByteSize = 26 → b.CreateAt ≠ 0 →
      b.UpdateAt = 0 →
      Bot.IsValid vu mx b =
        some (NewAppError "Bot.IsValid" "model.bot.is_valid.update_at.app_error" b.Trace "" 400)) := by
  unfold Bot.IsValid NewAppError
  split_ifs with h1 h2 h3 h4 h5 h6 h7 <;> simp_all

/-- Witness for the validator: a concrete valid bot passes, and flipping its
`CreateAt` to zero makes it fail with the create-at failure. -/
theorem botIsValid_spec_witness :
    Bot.IsValid (fun _ => true) 64 sampleBot = none :=
  ((botIsValid_spec (fun _ => true) 64 sampleBot).1).mpr (by decide)

/-- A bot whose only rule violation is a display name of 65 runes (one over the
shared maximum of 64 used by the repository). -/
def longNameBot : Bot :=
  { sampleBot with
    DisplayName := "xxxxxxxxxxxxxxxxxxxxxxxxxxxxxxxxxxxxxxxxxxxxxxxxxxxxxxxxxxxxxxxxx" }

/-- C2: the display-name check reuses the identity-length rule's message key
`model.bot.is_valid.user_id.app_error`, so the seven checks do not produce
seven distinct keys: a bot failing only the display-name rule and a bot
failing the identity rule yield the same key. -/
theorem botIsValid_displayName_key_collision :
    longNameBot.UserId.utf8ByteSize = 26 ∧
    longNameBot.DisplayName.length = 65 ∧
    (Bot.IsValid (fun _ => true) 64 longNameBot).map AppError.id =
      some "model.bot.is_valid.user_id.app_error" ∧
    (Bot.IsValid (fun _ => true) 64 { longNameBot with UserId := "" }).map AppError.id =
      some "model.bot.is_valid.user_id.app_error" := by
  decide

/-- First tie-break example entity: identity "a", `UpdateAt` 100. -/
def tieBotA : Bot := ⟨"a", "", "", "", "", 0, 100, 0⟩

/-- Second tie-break example entity: identity "b", `UpdateAt` 300. -/
def tieBotB : Bot := ⟨"b", "", "", "", "", 0, 300, 0⟩

/-- Third tie-break example entity: identity "c", `UpdateAt` 300. -/
def tieBotC : Bot := ⟨"c", "", "", "", "", 0, 300, 0⟩

/-- C1 counterexample: on `UpdateAt` values [100, 300, 300] with identities
["a", "b", "c"], the collection token is derived from identity "b" — the first
entity reaching the maximum, because the loop replaces the running maximum only
on strict increase — not from identity "c" as the claim states. The remaining
helper arguments are timestamp 300, delta 0 and length 3. -/
theorem botListEtag_tie_not_last :
    BotList.Etag (fun id _ _ _ => id) [tieBotA, tieBotB, tieBotC] ≠ "c" ∧
    BotList.Etag (fun id _ _ _ => id) [tieBotA, tieBotB, tieBotC] = "b" ∧
    BotList.Etag (fun _ t _ _ => toString t) [tieBotA, tieBotB, tieBotC] = "300" ∧
    BotList.Etag (fun _ _ d _ => toString d) [tieBotA, tieBotB, tieBotC] = "0" ∧
    BotList.Etag (fun _ _ _ n => toString n) [tieBotA, tieBotB, tieBotC] = "3" := by
  decide

/-- Once the running pair carries the maximum `UpdateAt` of the remaining
entities, the loop never replaces it: strict comparison fails everywhere. -/
theorem foldl_etagAccStep_stable (m : Int) (id₀ : String) (l : List Bot)
    (h : ∀ v ∈ l, v.UpdateAt ≤ m) :
    l.foldl etagAccStep (id₀, m) = (id₀, m) := by
  induction l with
  | nil => rfl
  | cons v vs ih =>
    have hv := h v (List.mem_cons_self v vs)
    have hstep : etagAccStep (id₀, m) v = (id₀, m) := by
      unfold etagAccStep
      rw [if_neg]
      omega
    rw [List.foldl_cons, hstep]
    exact ih (fun w hw => h w (List.mem_cons_of_mem v hw))

/-- The loop resolves ties toward the first entity attaining the maximum: if
every `UpdateAt` in `l` is at most `m`, the running timestamp is below `m`, and
`b` is the first entity of `l` with `UpdateAt = m`, the fold ends at
`(b.UserId, m)`. -/
theorem foldl_etagAccStep_firstMax (m : Int) (b : Bot) (l : List Bot)
    (acc : String × Int) (hacc : acc.2 < m)
    (hle : ∀ v ∈ l, v.UpdateAt ≤ m)
    (hfind : l.find? (fun v => v.UpdateAt == m) = some b) :
    l.foldl etagAccStep acc = (b.UserId, m) := by
  induction l generalizing acc with
  | nil => simp at hfind
  | cons v vs ih =>
    rw [List.foldl_cons]
    by_cases hv : v.UpdateAt = m
    · have hbv : (v.UpdateAt == m) = true := by simpa using hv
      have hb : b = v := by
        simp only [List.find?, hbv, cond_true] at hfind
        exact (Option.some_inj.mp hfind).symm
      have hstep : etagAccStep acc v = (v.UserId, m) := by
        unfold etagAccStep
        rw [hv, if_pos hacc]
      rw [hstep, hb]
      exact foldl_etagAccStep_stable m v.UserId vs
        (fun w hw => hle w (List.mem_cons_of_mem v hw))
    · have hbv : (v.UpdateAt == m) = false := by simpa using hv
      have hfind' : vs.find? (fun v => v.UpdateAt == m) = some b := by
        simp only [List.find?, hbv, cond_false] at hfind
        exact hfind
      have hlt : v.UpdateAt < m :=
        lt_of_le_of_ne (hle v (List.mem_cons_self v vs)) hv
      have hacc' : (etagAccStep acc v).2 < m := by
        unfold etagAccStep
        split <;> simpa
      exact ih (etagAccStep acc v) hacc'
        (fun w hw => hle w (List.mem_cons_of_mem v hw)) hfind'

/-- C1 amended: for a collection whose maximum `UpdateAt` is positive and
attained, `BotList.Etag` derives the token from the first entity encountered in
iteration order with that maximum (in particular from identity "b", timestamp
300, delta 0, length 3 on [100, 300, 300] / ["a", "b", "c"]), for every choice
of the shared `Etag` helper. -/
theorem botListEtag_first_max (etag : String → Int → Int → Nat → String)
    (l : BotList) (m : Int) (b : Bot)
    (hm : 0 < m) (hle : ∀ v ∈ l, v.UpdateAt ≤ m)
    (hfind : l.find? (fun v => v.UpdateAt == m) = some b) :
    BotList.Etag etag l = etag b.UserId m 0 l.length := by
  unfold BotList.Etag
  rw [foldl_etagAccStep_firstMax m b l ("0", 0) hm hle hfind]

/-- Witness for the amended tie-break theorem at the concrete [100, 300, 300]
collection: the token is derived from identity "b". -/
theorem botListEtag_first_max_witness :
    BotList.Etag (fun id _ _ _ => id) [tieBotA, tieBotB, tieBotC] = "b" :=
  botListEtag_first_max (fun id _ _ _ => id) [tieBotA, tieBotB, tieBotC] 300 tieBotB
    (by decide) (by decide) (by decide)

end Model
